import Mathlib

/-!
Shallow embedding of the Financial_Planner simulation engine
(src/finance_manager.py, incomes.py, expenses.py, investments.py,
events.py, targets.py).

Modelling conventions:
- Python floats are modelled as rationals.
- Python exceptions are modelled by an error inductive together with Except.
  Each constructor names the concrete Python exception site it stands for.
- The module-global numpy random source is modelled as an explicit stream of
  rational draws with a cursor; np.random.rand consumes one draw, and
  np.random.choice with probability weights is modelled by inverse-CDF
  sampling on one uniform draw (cumulative weights 0.6, 0.8, 0.925, 0.975).
- Snapshot fields are rounded to cents as in the source; the rounding is
  round-half-up on exact rationals, which agrees with the Python rounding on
  every value that is an exact multiple of a cent.
-/

deriving instance DecidableEq for Except

namespace FinPlan

/-- Error values, one per Python exception site in the source. -/
inductive Err where
  /-- ValueError raised by FinanceManager._validate_recurrence. -/
  | invalidRecurrence : Err
  /-- ValueError raised by get_object and delete_object on an unknown type tag. -/
  | unknownEntityType : Err
  /-- AttributeError raised when the action built by make_event_action
  dereferences the None returned by a failed lookup (obj.amount on None). -/
  | objectNotFound : Err
  /-- AttributeError raised when the looked-up object has no amount field
  (events and targets). -/
  | noAttributeAmount : Err
  /-- AttributeError raised by delete_object when assigning to the read-only
  property is_active of Income, Expense or Investment. -/
  | cantSetAttribute : Err
  /-- ValueError raised in the sweep phase when allocation weights do not sum
  to a positive total. -/
  | invalidAllocation : Err
  /-- ZeroDivisionError. -/
  | zeroDivision : Err
  deriving DecidableEq

/-- Model of str.lower on the type tags: lower-case every character. This is
the definition of String.toLower (map Char.toLower over the characters),
restated over the character list so that it evaluates by reduction. -/
def strLower (s : String) : String := ⟨s.data.map Char.toLower⟩

/-- Generic positional update of a list, used to model in-place mutation of
the object found by a linear scan. -/
def updAt {α : Type} : ℕ → (α → α) → List α → List α
  | _, _, [] => []
  | 0, f, x :: rest => f x :: rest
  | i + 1, f, x :: rest => x :: updAt i f rest

/-- Index of the first element satisfying a predicate, mirroring the Python
next((o for o in collection if ...), None) idiom. -/
def findIdxBy {α : Type} (p : α → Bool) : List α → Option ℕ
  | [] => none
  | x :: rest => if p x then some 0 else (findIdxBy p rest).map (· + 1)

/-- Model of the module-global numpy random state: a stream of rational draws
together with a cursor. -/
structure RNG where
  stream : ℕ → ℚ
  pos : ℕ

/-- One call of np.random.rand: return the next draw and advance the cursor. -/
def RNG.rand (g : RNG) : ℚ × RNG := (g.stream g.pos, ⟨g.stream, g.pos + 1⟩)

/-- Inverse-CDF model of np.random.choice over magnitudes
[0.05, 0.1, 0.15, 0.2, 0.3] with weights [0.6, 0.2, 0.125, 0.05, 0.025]
(cumulative 0.6, 0.8, 0.925, 0.975, 1). -/
def rate_from (u : ℚ) : ℚ :=
  if u < 3/5 then 1/20
  else if u < 4/5 then 1/10
  else if u < 37/40 then 3/20
  else if u < 39/40 then 1/5
  else 3/10

/-- The five possible shock magnitudes. -/
def rateSet : List ℚ := [1/20, 1/10, 3/20, 1/5, 3/10]

/-- Income (incomes.py). increment_rate is stored as 0 when inc is false,
exactly as the constructor does. -/
structure Income where
  name : String
  amount : ℚ
  recurrence : ℤ
  inc : Bool
  increment_rate : ℚ
  active : Bool
  deriving DecidableEq

/-- Income.receive: the current amount if active else 0, no side effect. -/
def Income.receive (i : Income) : ℚ := if i.active then i.amount else 0

/-- Income.apply_increment: scale amount by (1 + increment_rate) when growth
is enabled and the income is active. -/
def Income.apply_increment (i : Income) : Income :=
  if i.inc ∧ i.active then { i with amount := i.amount * (1 + i.increment_rate) } else i

/-- Expense (expenses.py), structurally identical to Income. -/
structure Expense where
  name : String
  amount : ℚ
  recurrence : ℤ
  inc : Bool
  increment_rate : ℚ
  active : Bool
  deriving DecidableEq

/-- Expense.charge: the current amount if active else 0, no side effect. -/
def Expense.charge (e : Expense) : ℚ := if e.active then e.amount else 0

/-- Expense.apply_increment, as for Income. -/
def Expense.apply_increment (e : Expense) : Expense :=
  if e.inc ∧ e.active then { e with amount := e.amount * (1 + e.increment_rate) } else e

/-- Investment (investments.py). -/
structure Investment where
  name : String
  amount : ℚ
  strt_amount : ℚ
  yearly_return_rate : ℚ
  volatility : ℚ
  dividend_per : ℚ
  active : Bool
  deriving DecidableEq

/-- Investment.add_funds: add to the balance when active, silently ignore
otherwise. -/
def Investment.add_funds (v : Investment) (x : ℚ) : Investment :=
  if v.active then { v with amount := v.amount + x } else v

/-- Investment.dividend: amount * dividend_per when active. The Python
function returns False when inactive; every caller either filters on
is_active first or divides the result by 12, and False / 12 is 0, so the
inactive case is modelled as 0. -/
def Investment.dividend (v : Investment) : ℚ :=
  if v.active then v.amount * v.dividend_per else 0

/-- Investment.yearly_increase: scale the balance by (1 + yearly_return_rate)
when active. -/
def Investment.yearly_increase (v : Investment) : Investment :=
  if v.active then { v with amount := v.amount * (1 + v.yearly_return_rate) } else v

/-- Investment.revaluation: when active, draw u; with probability volatility
(that is, when volatility > u) draw a direction (uniform 50/50) and a
magnitude, and scale the balance by the absolute value of
(direction + magnitude). Inactive investments consume no randomness. -/
def Investment.revaluation (v : Investment) (g : RNG) : Investment × RNG :=
  if v.active then
    let p1 := g.rand
    if v.volatility > p1.1 then
      let p2 := p1.2.rand
      let dir : ℚ := if p2.1 > 1/2 then 1 else -1
      let p3 := p2.2.rand
      let rate := rate_from p3.1
      ({ v with amount := v.amount * |dir + rate| }, p3.2)
    else (v, p1.2)
  else (v, g)

/-- Description of an action produced by make_event_action: the four
arguments of the factory. The repository builds every event action through
this factory (app.py), so an action value is this data interpreted by
make_event_action below. -/
structure EventAction where
  obj_type : String
  obj_name : String
  operation : String
  value : ℚ
  deriving DecidableEq

/-- Event (events.py). -/
structure Event where
  name : String
  trigger_month : ℤ
  action : EventAction
  executed : Bool
  deriving DecidableEq

/-- Metric selector standing for the check_function closure of a Target.
The UI (app.py) installs fun f => f.total_monthly_income_equivalent();
the other selectors are the remaining engine aggregates a closure over the
engine can read. -/
inductive Metric where
  | totalMonthlyIncomeEquivalent : Metric
  | totalMonthlyExpenseEquivalent : Metric
  | totalInvestments : Metric
  | cashBalance : Metric
  deriving DecidableEq

/-- Target (targets.py). The constructor validates nothing. -/
structure Target where
  name : String
  check_function : Metric
  goal_value : ℚ
  deriving DecidableEq

/-- One monthly snapshot, with the rounded display fields of the source. -/
structure Snapshot where
  month : ℤ
  cash : ℚ
  income : ℚ
  expense : ℚ
  dividends : ℚ
  invested : ℚ
  investments_total : ℚ
  targets : List (String × ℚ × ℚ × Bool)
  deriving DecidableEq

/-- The engine state (FinanceManager.__init__). The random state is global
in the source and is therefore threaded separately, not stored here. -/
structure FinanceManager where
  month : ℤ
  cash : ℚ
  incomes : List Income
  expenses : List Expense
  investments : List Investment
  events : List Event
  targets : List Target
  reinvest_dividends : Bool
  invest_sweep_rate : ℚ
  allocation : List (String × ℚ)
  history : List Snapshot
  deriving DecidableEq

/-- Rounding to cents used for snapshot display fields. Exact rationals that
are whole multiples of a cent are returned unchanged, which is all the
claims need; on ties Python rounds half to even while this rounds half up. -/
def round2 (x : ℚ) : ℚ := ((⌊x * 100 + 1/2⌋ : ℤ) : ℚ) / 100

/-- Reference to the object returned by FinanceManager.get_object: the
collection it lives in together with its position. Mutating through the
reference is modelled by updAt at that position. -/
inductive Loc where
  | income : ℕ → Loc
  | expense : ℕ → Loc
  | investment : ℕ → Loc
  | event : ℕ → Loc
  | target : ℕ → Loc
  deriving DecidableEq

/-- FinanceManager.get_object: lower-case the type tag, reject unknown tags
with a ValueError, then scan the collection for the first name match,
skipping objects that carry an is_active flag and are inactive (events and
targets have no such flag and are never skipped). -/
def get_object (fm : FinanceManager) (obj_type obj_name : String) : Except Err (Option Loc) :=
  let t := strLower obj_type
  if t = "income" then
    Except.ok ((findIdxBy (fun o => o.name == obj_name && o.active) fm.incomes).map Loc.income)
  else if t = "expense" then
    Except.ok ((findIdxBy (fun o => o.name == obj_name && o.active) fm.expenses).map Loc.expense)
  else if t = "investment" then
    Except.ok ((findIdxBy (fun o => o.name == obj_name && o.active) fm.investments).map Loc.investment)
  else if t = "event" then
    Except.ok ((findIdxBy (fun o => o.name == obj_name) fm.events).map Loc.event)
  else if t = "target" then
    Except.ok ((findIdxBy (fun o => o.name == obj_name) fm.targets).map Loc.target)
  else Except.error Err.unknownEntityType

/-- FinanceManager.delete_object: lower-case the type tag, reject unknown
tags, scan for the first name match (with no activity filter). A match that
carries the read-only is_active property (incomes, expenses, investments)
makes the assignment obj.is_active = False raise AttributeError; events and
targets are removed from their collection. No match returns false. -/
def delete_object (fm : FinanceManager) (obj_type obj_name : String) : Except Err (FinanceManager × Bool) :=
  let t := strLower obj_type
  if t = "income" then
    match findIdxBy (fun o => o.name == obj_name) fm.incomes with
    | some _ => Except.error Err.cantSetAttribute
    | none => Except.ok (fm, false)
  else if t = "expense" then
    match findIdxBy (fun o => o.name == obj_name) fm.expenses with
    | some _ => Except.error Err.cantSetAttribute
    | none => Except.ok (fm, false)
  else if t = "investment" then
    match findIdxBy (fun o => o.name == obj_name) fm.investments with
    | some _ => Except.error Err.cantSetAttribute
    | none => Except.ok (fm, false)
  else if t = "event" then
    match findIdxBy (fun o => o.name == obj_name) fm.events with
    | some i => Except.ok ({ fm with events := fm.events.eraseIdx i }, true)
    | none => Except.ok (fm, false)
  else if t = "target" then
    match findIdxBy (fun o => o.name == obj_name) fm.targets with
    | some i => Except.ok ({ fm with targets := fm.targets.eraseIdx i }, true)
    | none => Except.ok (fm, false)
  else Except.error Err.unknownEntityType

/-- The four operation strings the factory dispatches on, in source order. -/
def knownOps : List String := ["add", "multiply", "reduce_percent", "add_percent"]

/-- Amount update performed by the four recognized operations. Only called
under the guard operation ∈ knownOps, mirroring the if-elif chain. -/
def applyOp (operation : String) (value amt : ℚ) : ℚ :=
  if operation = "add" then amt + value
  else if operation = "multiply" then amt * value
  else if operation = "reduce_percent" then amt * (1 - value)
  else amt * (1 + value)

/-- The closure returned by make_event_action, applied to the engine. The
lookup runs first (it can raise the unknown-type ValueError); then the
if-elif chain on the operation string. A recognized operation dereferences
the lookup result: on None that raises (objectNotFound); on an event or
target, which have no amount attribute, it raises too; otherwise it updates
the amount in place. An unrecognized operation falls through the chain and
does nothing, without ever touching the lookup result. -/
def make_event_action (a : EventAction) (fm : FinanceManager) : Except Err FinanceManager :=
  match get_object fm a.obj_type a.obj_name with
  | Except.error e => Except.error e
  | Except.ok loc =>
    if a.operation ∈ knownOps then
      match loc with
      | none => Except.error Err.objectNotFound
      | some (Loc.income i) =>
        let l := updAt i (fun o => { o with amount := applyOp a.operation a.value o.amount }) fm.incomes
        Except.ok { fm with incomes := l }
      | some (Loc.expense i) =>
        let l := updAt i (fun o => { o with amount := applyOp a.operation a.value o.amount }) fm.expenses
        Except.ok { fm with expenses := l }
      | some (Loc.investment i) =>
        let l := updAt i (fun o => { o with amount := applyOp a.operation a.value o.amount }) fm.investments
        Except.ok { fm with investments := l }
      | some (Loc.event _) => Except.error Err.noAttributeAmount
      | some (Loc.target _) => Except.error Err.noAttributeAmount
    else Except.ok fm

/-- Event.apply: when the current month equals trigger_month and the event
has not yet executed, invoke the action on the engine and mark the event
executed; otherwise leave both untouched. When the action raises, the flag
is not set (the assignment follows the call in the source). -/
def Event.applyStep (e : Event) (month : ℤ) (fm : FinanceManager) : Except Err (Event × FinanceManager) :=
  if month = e.trigger_month ∧ ¬ e.executed then
    match make_event_action e.action fm with
    | Except.error err => Except.error err
    | Except.ok fm' => Except.ok ({ e with executed := true }, fm')
  else Except.ok (e, fm)

/-- The event loop of step_month: apply every event in collection order,
threading the engine. Actions never modify the events collection (they can
only rewrite amount fields or raise), so the processed flags are written
back at the end by the caller. -/
def eventsFold (month : ℤ) : List Event → FinanceManager → Except Err (List Event × FinanceManager)
  | [], fm => Except.ok ([], fm)
  | e :: rest, fm =>
    match Event.applyStep e month fm with
    | Except.error err => Except.error err
    | Except.ok (e', fm') =>
      match eventsFold month rest fm' with
      | Except.error err => Except.error err
      | Except.ok (rest', fm'') => Except.ok (e' :: rest', fm'')

/-- Phase 1 of step_month: fire due events. -/
def eventsPhase (fm : FinanceManager) : Except Err FinanceManager :=
  match eventsFold fm.month fm.events fm with
  | Except.error err => Except.error err
  | Except.ok (evs, fm') => Except.ok { fm' with events := evs }

/-- FinanceManager._is_due for an active flag and recurrence: active and the
current month is a multiple of the recurrence. The Python and-operator
short-circuits, so the modulo (and its ZeroDivisionError on recurrence 0)
is only reached for active flows. -/
def is_due (month : ℤ) (active : Bool) (recurrence : ℤ) : Except Err Bool :=
  if active then
    if recurrence = 0 then Except.error Err.zeroDivision
    else Except.ok (month % recurrence == 0)
  else Except.ok false

/-- Phase 2a: total received from due incomes (receive has no side effect,
so only the total is produced; the caller adds it to cash). -/
def incomesDueSum (month : ℤ) : List Income → Except Err ℚ
  | [] => Except.ok 0
  | i :: rest =>
    match is_due month i.active i.recurrence with
    | Except.error err => Except.error err
    | Except.ok d =>
      match incomesDueSum month rest with
      | Except.error err => Except.error err
      | Except.ok tot => Except.ok ((if d then i.receive else 0) + tot)

/-- Phase 2b: total charged by due expenses. -/
def expensesDueSum (month : ℤ) : List Expense → Except Err ℚ
  | [] => Except.ok 0
  | e :: rest =>
    match is_due month e.active e.recurrence with
    | Except.error err => Except.error err
    | Except.ok d =>
      match expensesDueSum month rest with
      | Except.error err => Except.error err
      | Except.ok tot => Except.ok ((if d then e.charge else 0) + tot)

/-- Phase 3: dividends. Every active investment yields dividend()/12; under
reinvestment the dividend is fed back through add_funds, otherwise it is
left for the caller to credit to cash. Returns the updated investments and
the accumulated dividends. -/
def dividendsLoop (reinvest : Bool) : List Investment → List Investment × ℚ
  | [] => ([], 0)
  | v :: rest =>
    let p := dividendsLoop reinvest rest
    if v.active then
      let d := v.dividend / 12
      if reinvest then (v.add_funds d :: p.1, d + p.2)
      else (v :: p.1, d + p.2)
    else (v :: p.1, p.2)

/-- Phase 4: one revaluation per investment in collection order, threading
the random state (inactive investments consume no draws). -/
def revalLoop : List Investment → RNG → List Investment × RNG
  | [], g => ([], g)
  | v :: rest, g =>
    let p := v.revaluation g
    let q := revalLoop rest p.2
    (p.1 :: q.1, q.2)

/-- Index of the first active investment with the given name, the generator
scan next((inv for inv in investments if inv.name == name and inv.is_active), None). -/
def firstActiveIdx (n : String) (invs : List Investment) : Option ℕ :=
  findIdxBy (fun v => v.name == n && v.active) invs

/-- Sweep distribution loop: for each allocation entry in order, find the
first active investment with that name (missing names are skipped), add
sweep_amount * weight / total_alloc to it, and accumulate the amount
actually distributed. -/
def distribute (sweep_amount total_alloc : ℚ) : List (String × ℚ) → List Investment → List Investment × ℚ
  | [], invs => (invs, 0)
  | p :: rest, invs =>
    match firstActiveIdx p.1 invs with
    | none => distribute sweep_amount total_alloc rest invs
    | some i =>
      let add_amt := sweep_amount * (p.2 / total_alloc)
      let q := distribute sweep_amount total_alloc rest (updAt i (fun v => v.add_funds add_amt) invs)
      (q.1, add_amt + q.2)

/-- Phase 6: the cash sweep. Active only when the sweep rate is positive and
the allocation is non-empty; a non-positive weight total raises ValueError;
the total actually distributed is subtracted from cash. Returns the updated
engine and invested_from_sweep. -/
def sweepPhase (fm : FinanceManager) : Except Err (FinanceManager × ℚ) :=
  if fm.invest_sweep_rate > 0 ∧ fm.allocation ≠ [] then
    let sweep_amount := max 0 (fm.cash * fm.invest_sweep_rate)
    if sweep_amount > 0 then
      let total_alloc := (fm.allocation.map Prod.snd).sum
      if total_alloc ≤ 0 then Except.error Err.invalidAllocation
      else
        let q := distribute sweep_amount total_alloc fm.allocation fm.investments
        Except.ok ({ fm with investments := q.1, cash := fm.cash - q.2 }, q.2)
    else Except.ok (fm, 0)
  else Except.ok (fm, 0)

/-- Phase 7 on incomes: each income due this month with growth enabled gets
its increment applied (after this month was settled). -/
def incomeIncrements (month : ℤ) : List Income → Except Err (List Income)
  | [] => Except.ok []
  | i :: rest =>
    match is_due month i.active i.recurrence with
    | Except.error err => Except.error err
    | Except.ok d =>
      match incomeIncrements month rest with
      | Except.error err => Except.error err
      | Except.ok rest' => Except.ok ((if d ∧ i.inc then i.apply_increment else i) :: rest')

/-- Phase 7 on expenses. -/
def expenseIncrements (month : ℤ) : List Expense → Except Err (List Expense)
  | [] => Except.ok []
  | e :: rest =>
    match is_due month e.active e.recurrence with
    | Except.error err => Except.error err
    | Except.ok d =>
      match expenseIncrements month rest with
      | Except.error err => Except.error err
      | Except.ok rest' => Except.ok ((if d ∧ e.inc then e.apply_increment else e) :: rest')

/-- FinanceManager._apply_increments_if_cycle_end. -/
def incrementsPhase (fm : FinanceManager) : Except Err FinanceManager :=
  match incomeIncrements fm.month fm.incomes with
  | Except.error err => Except.error err
  | Except.ok incs =>
    match expenseIncrements fm.month fm.expenses with
    | Except.error err => Except.error err
    | Except.ok exps => Except.ok { fm with incomes := incs, expenses := exps }

/-- FinanceManager.total_investments: sum of active investment balances. -/
def total_investments (fm : FinanceManager) : ℚ :=
  ((fm.investments.filter (fun v => v.active)).map Investment.amount).sum

/-- Sum of active incomes' monthly equivalents (amount / recurrence); an
active income with recurrence 0 raises ZeroDivisionError. -/
def incomeEquivSum : List Income → Except Err ℚ
  | [] => Except.ok 0
  | i :: rest =>
    if i.active then
      if i.recurrence = 0 then Except.error Err.zeroDivision
      else
        match incomeEquivSum rest with
        | Except.error err => Except.error err
        | Except.ok tot => Except.ok (i.amount / (i.recurrence : ℚ) + tot)
    else incomeEquivSum rest

/-- Sum of active expenses' monthly equivalents. -/
def expenseEquivSum : List Expense → Except Err ℚ
  | [] => Except.ok 0
  | e :: rest =>
    if e.active then
      if e.recurrence = 0 then Except.error Err.zeroDivision
      else
        match expenseEquivSum rest with
        | Except.error err => Except.error err
        | Except.ok tot => Except.ok (e.amount / (e.recurrence : ℚ) + tot)
    else expenseEquivSum rest

/-- Interpretation of a target metric against the engine, following the
engine aggregates. total_monthly_income_equivalent adds the active
investments' monthly dividend equivalents only when dividends are not
auto-reinvested. -/
def interpMetric : Metric → FinanceManager → Except Err ℚ
  | Metric.totalMonthlyIncomeEquivalent, fm =>
    let div : ℚ := if fm.reinvest_dividends then 0
      else ((fm.investments.filter (fun v => v.active)).map (fun v => v.dividend / 12)).sum
    match incomeEquivSum fm.incomes with
    | Except.error err => Except.error err
    | Except.ok inc => Except.ok (div + inc)
  | Metric.totalMonthlyExpenseEquivalent, fm => expenseEquivSum fm.expenses
  | Metric.totalInvestments, fm => Except.ok (total_investments fm)
  | Metric.cashBalance, fm => Except.ok fm.cash

/-- Target.status: compute the current metric value, then the progress
min(100, current / goal_value * 100). A zero goal_value makes the division
raise ZeroDivisionError; the constructor performs no validation. -/
def Target.status (t : Target) (fm : FinanceManager) : Except Err (ℚ × ℚ) :=
  match interpMetric t.check_function fm with
  | Except.error err => Except.error err
  | Except.ok current =>
    if t.goal_value = 0 then Except.error Err.zeroDivision
    else Except.ok (current, min 100 (current / t.goal_value * 100))

/-- Target.is_reached: current value at least the goal. -/
def Target.is_reached (t : Target) (fm : FinanceManager) : Except Err Bool :=
  match Target.status t fm with
  | Except.error err => Except.error err
  | Except.ok p => Except.ok (decide (p.1 ≥ t.goal_value))

/-- FinanceManager._targets_status: per-target tuples
(name, current, progress, reached). -/
def targetsLoop (fm : FinanceManager) : List Target → Except Err (List (String × ℚ × ℚ × Bool))
  | [] => Except.ok []
  | t :: rest =>
    match Target.status t fm with
    | Except.error err => Except.error err
    | Except.ok p =>
      match Target.is_reached t fm with
      | Except.error err => Except.error err
      | Except.ok r =>
        match targetsLoop fm rest with
        | Except.error err => Except.error err
        | Except.ok tl => Except.ok ((t.name, p.1, p.2, r) :: tl)

/-- FinanceManager.step_month: the eight phases in source order, returning
the snapshot, the advanced engine and the advanced random state. -/
def step_month (fm : FinanceManager) (g : RNG) : Except Err (Snapshot × FinanceManager × RNG) :=
  match eventsPhase fm with
  | Except.error err => Except.error err
  | Except.ok fm1 =>
    match incomesDueSum fm1.month fm1.incomes with
    | Except.error err => Except.error err
    | Except.ok income_this_month =>
      let fm2 := { fm1 with cash := fm1.cash + income_this_month }
      match expensesDueSum fm2.month fm2.expenses with
      | Except.error err => Except.error err
      | Except.ok expense_this_month =>
        let fm3 := { fm2 with cash := fm2.cash - expense_this_month }
        let pd := dividendsLoop fm3.reinvest_dividends fm3.investments
        let divCash := fm3.cash + (if fm3.reinvest_dividends then 0 else pd.2)
        let fm4 := { fm3 with investments := pd.1, cash := divCash }
        let pr := revalLoop fm4.investments g
        let fm5 := { fm4 with investments := pr.1 }
        let fm6 := if (fm5.month + 1) % 12 = 0
          then { fm5 with investments := fm5.investments.map Investment.yearly_increase }
          else fm5
        match sweepPhase fm6 with
        | Except.error err => Except.error err
        | Except.ok (fm7, invested_from_sweep) =>
          match incrementsPhase fm7 with
          | Except.error err => Except.error err
          | Except.ok fm8 =>
            match targetsLoop fm8 fm8.targets with
            | Except.error err => Except.error err
            | Except.ok tstats =>
              let snap : Snapshot :=
                { month := fm8.month
                  cash := round2 fm8.cash
                  income := round2 income_this_month
                  expense := round2 expense_this_month
                  dividends := round2 pd.2
                  invested := round2 invested_from_sweep
                  investments_total := round2 (total_investments fm8)
                  targets := tstats }
              Except.ok (snap, { fm8 with history := fm8.history ++ [snap], month := fm8.month + 1 }, pr.2)

/-- FinanceManager.run: n sequential calls of step_month, collecting the
snapshots in order. -/
def run : ℕ → FinanceManager → RNG → Except Err (List Snapshot × FinanceManager × RNG)
  | 0, fm, g => Except.ok ([], fm, g)
  | n + 1, fm, g =>
    match step_month fm g with
    | Except.error err => Except.error err
    | Except.ok (snap, fm', g') =>
      match run n fm' g' with
      | Except.error err => Except.error err
      | Except.ok (snaps, fm'', g'') => Except.ok (snap :: snaps, fm'', g'')

/-! Concrete inputs used by witnesses and counterexamples. -/

/-- A fixed random stream: every draw is 0. -/
def rng0 : RNG := ⟨fun _ => 0, 0⟩

/-- An engine with no entities, default configuration. -/
def fmEmpty : FinanceManager :=
  { month := 0, cash := 0, incomes := [], expenses := [], investments := [], events := [],
    targets := [], reinvest_dividends := true, invest_sweep_rate := 0, allocation := [], history := [] }

/-- The worked example of the specification: cash 15000, one monthly income
of 20000, one monthly expense of 6000, no investments, sweeping off. -/
def fmExample : FinanceManager :=
  { month := 0, cash := 15000,
    incomes := [{ name := "Salary", amount := 20000, recurrence := 1, inc := false, increment_rate := 0, active := true }],
    expenses := [{ name := "Rent", amount := 6000, recurrence := 1, inc := false, increment_rate := 0, active := true }],
    investments := [], events := [], targets := [],
    reinvest_dividends := true, invest_sweep_rate := 0, allocation := [], history := [] }

/-- A default investment for List.getD access. -/
def dummyInv : Investment :=
  { name := "", amount := 0, strt_amount := 0, yearly_return_rate := 0, volatility := 0,
    dividend_per := 0, active := false }

/-- A default event for List.getD access, not yet executed. -/
def dummyEvent : Event :=
  { name := "", trigger_month := 0, action := { obj_type := "", obj_name := "", operation := "", value := 0 },
    executed := false }

/-- A default snapshot for List.getD access. -/
def dummySnap : Snapshot :=
  { month := 0, cash := 0, income := 0, expense := 0, dividends := 0, invested := 0,
    investments_total := 0, targets := [] }

/-- An action referring to a name no entity carries, with a recognized
operation. -/
def aAddGhost : EventAction := { obj_type := "income", obj_name := "Ghost", operation := "add", value := 5 }

/-- An action referring to a name no entity carries, with an unrecognized
operation string. -/
def aNoopGhost : EventAction := { obj_type := "income", obj_name := "Ghost", operation := "noop", value := 5 }

/-- An action on an existing income with an unrecognized operation string. -/
def aNoopSalary : EventAction := { obj_type := "income", obj_name := "Salary", operation := "frobnicate", value := 7 }

/-- An already-executed event, for the exactly-once witness. -/
def evDone : Event := { name := "Promo", trigger_month := 5, action := aAddGhost, executed := true }

/-- An engine on which the first step aborts: sweeping is active with cash 1
and rate 1, but the single allocation weight is negative, so the sweep phase
raises the invalid-allocation error. -/
def fmBadAlloc : FinanceManager :=
  { month := 0, cash := 1, incomes := [], expenses := [], investments := [], events := [],
    targets := [], reinvest_dividends := true, invest_sweep_rate := 1,
    allocation := [("A", -1)], history := [] }

/-- Active investment named A with balance 100. -/
def invA : Investment :=
  { name := "A", amount := 100, strt_amount := 100, yearly_return_rate := 0, volatility := 0,
    dividend_per := 0, active := true }

/-- Active investment named B with balance 50. -/
def invB : Investment :=
  { name := "B", amount := 50, strt_amount := 50, yearly_return_rate := 0, volatility := 0,
    dividend_per := 0, active := true }

/-- Sweep example: cash 2000 at rate 1/2 gives sweep_amount 1000, split 60/40
between A and B. -/
def fmSweep : FinanceManager :=
  { month := 0, cash := 2000, incomes := [], expenses := [], investments := [invA, invB],
    events := [], targets := [], reinvest_dividends := true, invest_sweep_rate := 1/2,
    allocation := [("A", 3/5), ("B", 2/5)], history := [] }

/-- Engine holding an active income named Salary and one event, for the
deletion claims. -/
def fmDel : FinanceManager :=
  { month := 0, cash := 0,
    incomes := [{ name := "Salary", amount := 20000, recurrence := 1, inc := false, increment_rate := 0, active := true }],
    expenses := [], investments := [], events := [evDone], targets := [],
    reinvest_dividends := true, invest_sweep_rate := 0, allocation := [], history := [] }

/-- A target whose goal value is zero. -/
def tZero : Target := { name := "Goal", check_function := Metric.cashBalance, goal_value := 0 }

/-- The snapshot the worked example produces on its first step. -/
def snapExample : Snapshot :=
  { month := 0, cash := 29000, income := 20000, expense := 6000, dividends := 0, invested := 0,
    investments_total := 0, targets := [] }

/-- The worked example engine after its first step. -/
def fmExampleAfter : FinanceManager :=
  { fmExample with cash := 29000, month := 1, history := [snapExample] }

/-! Helper lemmas about the list primitives. -/

theorem updAt_length {α : Type} (i : ℕ) (f : α → α) (l : List α) : (updAt i f l).length = l.length := by
  induction l generalizing i with
  | nil => cases i <;> rfl
  | cons x rest ih => cases i <;> simp [updAt, ih]

theorem updAt_getD_self {α : Type} (i : ℕ) (f : α → α) (l : List α) (d : α) (h : i < l.length) :
    (updAt i f l).getD i d = f (l.getD i d) := by
  induction l generalizing i with
  | nil => simp at h
  | cons x rest ih =>
    cases i with
    | zero => simp [updAt]
    | succ j => simpa [updAt] using ih j (by simpa using h)

theorem updAt_getD_ne {α : Type} (i j : ℕ) (f : α → α) (l : List α) (d : α) (h : j ≠ i) :
    (updAt i f l).getD j d = l.getD j d := by
  induction l generalizing i j with
  | nil => cases i <;> rfl
  | cons x rest ih =>
    cases i with
    | zero => cases j with
      | zero => exact absurd rfl h
      | succ k => simp [updAt]
    | succ i' => cases j with
      | zero => simp [updAt]
      | succ k => simpa [updAt] using ih i' k (by omega)

theorem findIdxBy_updAt {α : Type} (p : α → Bool) (i : ℕ) (f : α → α) (l : List α)
    (hf : ∀ x, p (f x) = p x) : findIdxBy p (updAt i f l) = findIdxBy p l := by
  induction l generalizing i with
  | nil => cases i <;> rfl
  | cons x rest ih => cases i <;> simp [updAt, findIdxBy, hf, ih]

theorem findIdxBy_some_lt {α : Type} (p : α → Bool) (l : List α) (i : ℕ)
    (h : findIdxBy p l = some i) : i < l.length := by
  induction l generalizing i with
  | nil => simp [findIdxBy] at h
  | cons x rest ih =>
    rw [findIdxBy] at h
    by_cases hp : p x
    · rw [if_pos hp] at h
      cases h
      simp
    · rw [if_neg hp] at h
      obtain ⟨j, hj, hji⟩ := Option.map_eq_some'.1 h
      have := ih j hj
      subst hji
      simp only [List.length_cons]
      omega

theorem findIdxBy_some_getD {α : Type} (p : α → Bool) (l : List α) (i : ℕ) (d : α)
    (h : findIdxBy p l = some i) : p (l.getD i d) = true := by
  induction l generalizing i with
  | nil => simp [findIdxBy] at h
  | cons x rest ih =>
    rw [findIdxBy] at h
    by_cases hp : p x
    · rw [if_pos hp] at h
      cases h
      simpa using hp
    · rw [if_neg hp] at h
      obtain ⟨j, hj, hji⟩ := Option.map_eq_some'.1 h
      subst hji
      simpa using ih j hj

theorem firstActiveIdx_facts (n : String) (invs : List Investment) (i : ℕ)
    (h : firstActiveIdx n invs = some i) :
    i < invs.length ∧ (invs.getD i dummyInv).name = n ∧ (invs.getD i dummyInv).active = true := by
  rw [firstActiveIdx] at h
  refine ⟨findIdxBy_some_lt _ _ _ h, ?_⟩
  have := findIdxBy_some_getD (fun v => v.name == n && v.active) invs i dummyInv h
  simpa using this

/-! Frame lemmas: which engine fields each phase can touch. -/

theorem make_event_action_frame (a : EventAction) (fm fm' : FinanceManager)
    (h : make_event_action a fm = Except.ok fm') :
    fm'.month = fm.month ∧ fm'.cash = fm.cash ∧ fm'.events = fm.events ∧
    fm'.targets = fm.targets ∧ fm'.history = fm.history ∧
    fm'.reinvest_dividends = fm.reinvest_dividends ∧
    fm'.invest_sweep_rate = fm.invest_sweep_rate ∧ fm'.allocation = fm.allocation := by
  unfold make_event_action at h
  split at h
  · cases h
  · split at h
    · split at h <;> cases h <;> exact ⟨rfl, rfl, rfl, rfl, rfl, rfl, rfl, rfl⟩
    · cases h; exact ⟨rfl, rfl, rfl, rfl, rfl, rfl, rfl, rfl⟩

theorem applyStep_executed (e : Event) (month : ℤ) (fm : FinanceManager) (h : e.executed = true) :
    Event.applyStep e month fm = Except.ok (e, fm) := by
  simp [Event.applyStep, h]

theorem applyStep_not_trigger (e : Event) (month : ℤ) (fm : FinanceManager)
    (h : month ≠ e.trigger_month) : Event.applyStep e month fm = Except.ok (e, fm) := by
  simp [Event.applyStep, h]

theorem applyStep_fires (e : Event) (month : ℤ) (fm : FinanceManager)
    (h1 : e.executed = false) (h2 : month = e.trigger_month) :
    Event.applyStep e month fm
      = (make_event_action e.action fm).map (fun q => ({ e with executed := true }, q)) := by
  unfold Event.applyStep
  rw [if_pos (by simp [h1, h2])]
  cases hma : make_event_action e.action fm <;> simp [Except.map]

theorem applyStep_ok_frame (e : Event) (month : ℤ) (fm : FinanceManager) (e' : Event)
    (fm' : FinanceManager) (h : Event.applyStep e month fm = Except.ok (e', fm')) :
    fm'.month = fm.month ∧ fm'.targets = fm.targets ∧ fm'.history = fm.history ∧
    (e.executed = true → e'.executed = true) := by
  unfold Event.applyStep at h
  split at h
  · split at h
    · cases h
    · rename_i fm2 hma
      cases h
      obtain ⟨hm, _, _, htg, hh, _, _, _⟩ := make_event_action_frame _ _ _ hma
      exact ⟨hm, htg, hh, fun _ => rfl⟩
  · cases h
    exact ⟨rfl, rfl, rfl, fun hx => hx⟩

theorem eventsFold_ok (month : ℤ) (evs : List Event) (fm : FinanceManager) (evs' : List Event)
    (fm' : FinanceManager) (h : eventsFold month evs fm = Except.ok (evs', fm')) :
    evs'.length = evs.length ∧
    (∀ i, (evs.getD i dummyEvent).executed = true → (evs'.getD i dummyEvent).executed = true) ∧
    fm'.month = fm.month ∧ fm'.targets = fm.targets ∧ fm'.history = fm.history := by
  induction evs generalizing fm evs' with
  | nil =>
    rw [eventsFold] at h
    cases h
    exact ⟨rfl, fun i hx => hx, rfl, rfl, rfl⟩
  | cons e rest ih =>
    rw [eventsFold] at h
    split at h
    · cases h
    · rename_i e1 fm1 hap
      split at h
      · cases h
      · rename_i rest1 fm2 hfold
        cases h
        obtain ⟨hm1, htg1, hh1, hmono1⟩ := applyStep_ok_frame _ _ _ _ _ hap
        obtain ⟨hlen, hmono, hm2, htg2, hh2⟩ := ih fm1 rest1 hfold
        refine ⟨by simp [hlen], ?_, by rw [hm2, hm1], by rw [htg2, htg1], by rw [hh2, hh1]⟩
        intro i
        cases i with
        | zero => simpa using hmono1
        | succ j => simpa using hmono j

theorem eventsPhase_ok (fm fm' : FinanceManager) (h : eventsPhase fm = Except.ok fm') :
    fm'.month = fm.month ∧ fm'.targets = fm.targets ∧ fm'.history = fm.history ∧
    fm'.events.length = fm.events.length ∧
    (∀ i, (fm.events.getD i dummyEvent).executed = true →
      (fm'.events.getD i dummyEvent).executed = true) := by
  unfold eventsPhase at h
  split at h
  · cases h
  · rename_i evs fm1 hfold
    cases h
    obtain ⟨hlen, hmono, hm, htg, hh⟩ := eventsFold_ok _ _ _ _ _ hfold
    exact ⟨hm, htg, hh, hlen, hmono⟩

theorem sweepPhase_ok_frame (fm fm' : FinanceManager) (inv : ℚ)
    (h : sweepPhase fm = Except.ok (fm', inv)) :
    fm'.month = fm.month ∧ fm'.incomes = fm.incomes ∧ fm'.expenses = fm.expenses ∧
    fm'.events = fm.events ∧ fm'.targets = fm.targets ∧ fm'.history = fm.history := by
  simp only [sweepPhase] at h
  split at h
  · split at h
    · split at h
      · cases h
      · cases h
        exact ⟨rfl, rfl, rfl, rfl, rfl, rfl⟩
    · cases h
      exact ⟨rfl, rfl, rfl, rfl, rfl, rfl⟩
  · cases h
    exact ⟨rfl, rfl, rfl, rfl, rfl, rfl⟩

theorem incrementsPhase_ok_frame (fm fm' : FinanceManager) (h : incrementsPhase fm = Except.ok fm') :
    fm'.month = fm.month ∧ fm'.cash = fm.cash ∧ fm'.investments = fm.investments ∧
    fm'.events = fm.events ∧ fm'.targets = fm.targets ∧ fm'.history = fm.history := by
  unfold incrementsPhase at h
  split at h
  · cases h
  · split at h
    · cases h
    · cases h
      exact ⟨rfl, rfl, rfl, rfl, rfl, rfl⟩

theorem step_month_ok (fm : FinanceManager) (g : RNG) (s : Snapshot) (fm' : FinanceManager)
    (g' : RNG) (h : step_month fm g = Except.ok (s, fm', g')) :
    s.month = fm.month ∧ fm'.month = fm.month + 1 ∧
    fm'.events.length = fm.events.length ∧
    (∀ i, (fm.events.getD i dummyEvent).executed = true →
      (fm'.events.getD i dummyEvent).executed = true) := by
  simp only [step_month] at h
  split at h
  · cases h
  · rename_i fm1 hev
    split at h
    · cases h
    · rename_i inc hinc
      split at h
      · cases h
      · rename_i exp hexp
        split at h
        · cases h
        · rename_i fm7 invested hsweep
          split at h
          · cases h
          · rename_i fm8 hincr
            split at h
            · cases h
            · rename_i tst htl
              cases h
              obtain ⟨hm1, _, _, hlen1, hmono1⟩ := eventsPhase_ok _ _ hev
              obtain ⟨hm7, _, _, hev7, _, _⟩ := sweepPhase_ok_frame _ _ _ hsweep
              obtain ⟨hm8, _, _, hev8, _, _⟩ := incrementsPhase_ok_frame _ _ hincr
              refine ⟨?_, ?_, ?_, ?_⟩
              · show fm8.month = fm.month
                rw [hm8, hm7]
                split <;> exact hm1
              · show fm8.month + 1 = fm.month + 1
                rw [hm8, hm7]
                split <;> rw [hm1]
              · show fm8.events.length = fm.events.length
                rw [hev8, hev7]
                split <;> exact hlen1
              · intro i hx
                show (fm8.events.getD i dummyEvent).executed = true
                rw [hev8, hev7]
                split <;> exact hmono1 i hx

/-! Lemmas about the sweep distribution loop. -/

theorem add_funds_pred (n : String) (x : ℚ) (v : Investment) :
    ((v.add_funds x).name == n && (v.add_funds x).active) = (v.name == n && v.active) := by
  unfold Investment.add_funds
  split <;> rfl

theorem firstActiveIdx_updAt_add (n : String) (i : ℕ) (x : ℚ) (invs : List Investment) :
    firstActiveIdx n (updAt i (fun v => v.add_funds x) invs) = firstActiveIdx n invs := by
  unfold firstActiveIdx
  exact findIdxBy_updAt _ _ _ _ (fun v => add_funds_pred n x v)

theorem distribute_cons_none (sweep total : ℚ) (hd : String × ℚ) (rest : List (String × ℚ))
    (invs : List Investment) (hfa : firstActiveIdx hd.1 invs = none) :
    distribute sweep total (hd :: rest) invs = distribute sweep total rest invs := by
  simp only [distribute, hfa]

theorem distribute_cons_some (sweep total : ℚ) (hd : String × ℚ) (rest : List (String × ℚ))
    (invs : List Investment) (i : ℕ) (hfa : firstActiveIdx hd.1 invs = some i) :
    distribute sweep total (hd :: rest) invs
      = ((distribute sweep total rest (updAt i (fun v => v.add_funds (sweep * (hd.2 / total))) invs)).1,
         sweep * (hd.2 / total)
           + (distribute sweep total rest (updAt i (fun v => v.add_funds (sweep * (hd.2 / total))) invs)).2) := by
  simp only [distribute, hfa]

theorem distribute_spec (sweep total : ℚ) :
    ∀ (al : List (String × ℚ)) (invs : List Investment), (al.map Prod.fst).Nodup →
    (distribute sweep total al invs).1.length = invs.length ∧
    (distribute sweep total al invs).2
      = (al.map (fun p => if (firstActiveIdx p.1 invs).isSome = true then sweep * (p.2 / total) else 0)).sum ∧
    (∀ p ∈ al, ∀ i, firstActiveIdx p.1 invs = some i →
      ((distribute sweep total al invs).1.getD i dummyInv).amount
        = (invs.getD i dummyInv).amount + sweep * (p.2 / total)) ∧
    (∀ j, (∀ p ∈ al, firstActiveIdx p.1 invs ≠ some j) →
      (distribute sweep total al invs).1.getD j dummyInv = invs.getD j dummyInv) := by
  intro al
  induction al with
  | nil =>
    intro invs _
    refine ⟨rfl, by simp [distribute], by simp, fun j _ => rfl⟩
  | cons hd rest ih =>
    intro invs hnd
    rw [List.map_cons, List.nodup_cons] at hnd
    obtain ⟨hni, hndr⟩ := hnd
    cases hfa : firstActiveIdx hd.1 invs with
    | none =>
      have hD := distribute_cons_none sweep total hd rest invs hfa
      obtain ⟨ih1, ih2, ih3, ih4⟩ := ih invs hndr
      refine ⟨by rw [hD]; exact ih1, ?_, ?_, ?_⟩
      · rw [hD, ih2, List.map_cons, List.sum_cons, hfa]
        simp
      · intro p hp i hi
        rcases List.mem_cons.1 hp with heq | hp'
        · subst heq
          rw [hfa] at hi
          cases hi
        · rw [hD]
          exact ih3 p hp' i hi
      · intro j hj
        rw [hD]
        exact ih4 j (fun p hp => hj p (List.mem_cons_of_mem _ hp))
    | some i =>
      have hD := distribute_cons_some sweep total hd rest invs i hfa
      have hstab : ∀ n', firstActiveIdx n'
          (updAt i (fun v => v.add_funds (sweep * (hd.2 / total))) invs) = firstActiveIdx n' invs :=
        fun n' => firstActiveIdx_updAt_add n' i _ invs
      obtain ⟨hlt, hname, hact⟩ := firstActiveIdx_facts _ _ _ hfa
      obtain ⟨ih1, ih2, ih3, ih4⟩ := ih (updAt i (fun v => v.add_funds (sweep * (hd.2 / total))) invs) hndr
      refine ⟨?_, ?_, ?_, ?_⟩
      · rw [hD]
        simpa [updAt_length] using ih1
      · rw [hD]
        show sweep * (hd.2 / total) + _ = _
        rw [ih2, List.map_cons, List.sum_cons, hfa]
        have hmc : rest.map (fun p => if (firstActiveIdx p.1
            (updAt i (fun v => v.add_funds (sweep * (hd.2 / total))) invs)).isSome = true
              then sweep * (p.2 / total) else 0)
            = rest.map (fun p => if (firstActiveIdx p.1 invs).isSome = true
              then sweep * (p.2 / total) else 0) := by
          apply List.map_congr_left
          intro p _
          rw [hstab]
        rw [hmc]
        simp
      · intro p hp i' hi'
        rcases List.mem_cons.1 hp with heq | hp'
        · subst heq
          rw [hfa] at hi'
          cases hi'
          have hrest_not : ∀ p' ∈ rest, firstActiveIdx p'.1
              (updAt i (fun v => v.add_funds (sweep * (p.2 / total))) invs) ≠ some i := by
            intro p' hp' hcontra
            rw [hstab p'.1] at hcontra
            obtain ⟨_, hn', _⟩ := firstActiveIdx_facts _ _ _ hcontra
            exact hni ((hn'.symm.trans hname) ▸ List.mem_map_of_mem Prod.fst hp')
          rw [hD]
          show ((distribute _ _ rest _).1.getD i dummyInv).amount = _
          rw [ih4 i hrest_not, updAt_getD_self _ _ _ _ hlt]
          unfold Investment.add_funds
          rw [if_pos hact]
        · have hne : i' ≠ i := by
            intro he
            subst he
            obtain ⟨_, hn'', _⟩ := firstActiveIdx_facts _ _ _ hi'
            exact hni ((hn''.symm.trans hname) ▸ List.mem_map_of_mem Prod.fst hp')
          have hi'' : firstActiveIdx p.1
              (updAt i (fun v => v.add_funds (sweep * (hd.2 / total))) invs) = some i' := by
            rw [hstab]
            exact hi'
          rw [hD]
          show ((distribute _ _ rest _).1.getD i' dummyInv).amount = _
          rw [ih3 p hp' i' hi'', updAt_getD_ne _ _ _ _ _ hne]
      · intro j hj
        have hij : i ≠ j := by
          intro he
          exact hj hd (List.mem_cons_self _ _) (he ▸ hfa)
        have hrest : ∀ p ∈ rest, firstActiveIdx p.1
            (updAt i (fun v => v.add_funds (sweep * (hd.2 / total))) invs) ≠ some j := by
          intro p hp
          rw [hstab]
          exact hj p (List.mem_cons_of_mem _ hp)
        rw [hD]
        show (distribute _ _ rest _).1.getD j dummyInv = _
        rw [ih4 j hrest]
        exact updAt_getD_ne _ _ _ _ _ (Ne.symm hij)

theorem run_ok_spec (n : ℕ) : ∀ (fm : FinanceManager) (g : RNG) (snaps : List Snapshot)
    (fm' : FinanceManager) (g' : RNG), run n fm g = Except.ok (snaps, fm', g') →
    snaps.length = n ∧ fm'.month = fm.month + n ∧
    (∀ i, i < n → (snaps.getD i dummySnap).month = fm.month + i) := by
  induction n with
  | zero =>
    intro fm g snaps fm' g' h
    rw [run] at h
    cases h
    exact ⟨rfl, by simp, fun i hi => absurd hi (by omega)⟩
  | succ m ih =>
    intro fm g snaps fm' g' h
    rw [run] at h
    split at h
    · cases h
    · rename_i s fm1 g1 hstep
      split at h
      · cases h
      · rename_i snaps1 fm2 g2 hrun
        cases h
        obtain ⟨hsm, hm1, _, _⟩ := step_month_ok _ _ _ _ _ hstep
        obtain ⟨hlen, hm2, hmon⟩ := ih _ _ _ _ _ hrun
        refine ⟨by simp [hlen], ?_, ?_⟩
        · rw [hm2, hm1]
          push_cast
          ring
        · intro i hi
          cases i with
          | zero => simpa using hsm
          | succ j =>
            have hj : j < m := by omega
            have := hmon j hj
            rw [hm1] at this
            simp only [List.getD_cons_succ]
            rw [this]
            push_cast
            ring

/-! Error classification for the target metrics. -/

theorem incomeEquivSum_error (l : List Income) (e : Err) (h : incomeEquivSum l = Except.error e) :
    e = Err.zeroDivision := by
  induction l with
  | nil =>
    rw [incomeEquivSum] at h
    cases h
  | cons i rest ih =>
    rw [incomeEquivSum] at h
    split at h
    · split at h
      · cases h
        rfl
      · split at h
        · rename_i e' he'
          cases h
          exact ih he'
        · cases h
    · exact ih h

theorem expenseEquivSum_error (l : List Expense) (e : Err) (h : expenseEquivSum l = Except.error e) :
    e = Err.zeroDivision := by
  induction l with
  | nil =>
    rw [expenseEquivSum] at h
    cases h
  | cons x rest ih =>
    rw [expenseEquivSum] at h
    split at h
    · split at h
      · cases h
        rfl
      · split at h
        · rename_i e' he'
          cases h
          exact ih he'
        · cases h
    · exact ih h

theorem interpMetric_error (m : Metric) (fm : FinanceManager) (e : Err)
    (h : interpMetric m fm = Except.error e) : e = Err.zeroDivision := by
  cases m with
  | totalMonthlyIncomeEquivalent =>
    rw [interpMetric] at h
    split at h
    · rename_i e' he'
      cases h
      exact incomeEquivSum_error _ _ he'
    · cases h
  | totalMonthlyExpenseEquivalent =>
    rw [interpMetric] at h
    exact expenseEquivSum_error _ _ h
  | totalInvestments =>
    rw [interpMetric] at h
    cases h
  | cashBalance =>
    rw [interpMetric] at h
    cases h

/-- Every draw maps to one of the five shock magnitudes. -/
theorem rate_from_cases (u : ℚ) : rate_from u ∈ rateSet := by
  unfold rate_from
  split
  · simp [rateSet]
  split
  · simp [rateSet]
  split
  · simp [rateSet]
  split
  · simp [rateSet]
  · simp [rateSet]

/-- The shock magnitude always lies between 1/20 and 3/10. -/
theorem rate_from_bounds (u : ℚ) : 1/20 ≤ rate_from u ∧ rate_from u ≤ 3/10 := by
  unfold rate_from
  split
  · norm_num
  split
  · norm_num
  split
  · norm_num
  split
  · norm_num
  · norm_num

/-- The revaluation factor, the absolute value of direction plus magnitude,
is strictly positive for both directions. -/
theorem abs_dir_rate_pos (d u : ℚ) (hd : d = 1 ∨ d = -1) : 0 < |d + rate_from u| := by
  obtain ⟨hlb, hub⟩ := rate_from_bounds u
  rcases hd with rfl | rfl
  · rw [abs_of_pos (by linarith)]
    linarith
  · rw [abs_of_neg (by linarith)]
    linarith

/-- The two names of the sweep example differ. -/
theorem nameA_ne_nameB : ("A" : String) ≠ "B" := by decide

/-! The claims. -/

/-- Claim C1, counterexample to the claim as stated: there is an engine state
on which run 1 does not return one snapshot at all — the sweep phase aborts
the step with the invalid-allocation error (negative allocation weight with
positive sweep rate and cash), so running is not unconditionally
time-bounded over every engine state. -/
theorem C1_counterexample_run_can_abort :
    run 1 fmBadAlloc rng0 = Except.error Err.invalidAllocation := by
  norm_num [run, step_month, eventsPhase, eventsFold, incomesDueSum, expensesDueSum,
    dividendsLoop, revalLoop, sweepPhase, fmBadAlloc]

/-- Claim C1 (amended): whenever run n returns normally, it has performed
exactly n monthly steps with no early exit — it returns exactly n snapshots
whose month fields are start_month, start_month + 1, ..., start_month + n - 1
(and the engine has advanced by exactly n months); a step that raises instead
aborts the whole run with that error. -/
theorem C1_run_time_bounded (n : ℕ) (fm : FinanceManager) (g : RNG) (snaps : List Snapshot)
    (fm' : FinanceManager) (g' : RNG) (h : run n fm g = Except.ok (snaps, fm', g')) :
    snaps.length = n ∧ fm'.month = fm.month + n ∧
    (∀ i, i < n → (snaps.getD i dummySnap).month = fm.month + i) :=
  run_ok_spec n fm g snaps fm' g' h

/-- Witness for C1: the worked example runs one month successfully, and the
theorem applies to that run. -/
theorem C1_witness :
    [snapExample].length = 1 ∧ fmExampleAfter.month = fmExample.month + ((1 : ℕ) : ℤ) := by
  have hrun : run 1 fmExample rng0 = Except.ok ([snapExample], fmExampleAfter, rng0) := by
    norm_num [run, step_month, eventsPhase, eventsFold, incomesDueSum, expensesDueSum, is_due,
      Income.receive, Expense.charge, dividendsLoop, revalLoop, sweepPhase, incrementsPhase,
      incomeIncrements, expenseIncrements, targetsLoop, round2, total_investments,
      fmExample, fmExampleAfter, snapExample]
  obtain ⟨h1, h2, _⟩ := C1_run_time_bounded 1 fmExample rng0 [snapExample] fmExampleAfter rng0 hrun
  exact ⟨h1, h2⟩

/-- Claim C2 (confirmed): from month 0 with cash 15000, one active monthly
income of 20000 and one active monthly expense of 6000, no investments, no
events, no targets and sweeping disabled, one step produces a snapshot with
income total 20000, expense total 6000 and cash 29000. -/
theorem C2_single_step_example :
    (step_month fmExample rng0).map (fun out => (out.1.income, out.1.expense, out.1.cash))
      = Except.ok (20000, 6000, 29000) := by
  norm_num [step_month, eventsPhase, eventsFold, incomesDueSum, expensesDueSum, is_due,
    Income.receive, Expense.charge, dividendsLoop, revalLoop, sweepPhase, incrementsPhase,
    incomeIncrements, expenseIncrements, targetsLoop, round2, total_investments,
    fmExample, Except.map]

/-- Claim C3 (confirmed): the pending-to-fired transition is exactly-once.
An already-fired event is left untouched and its action is not invoked, even
at a month equal to its trigger month; an unfired event at its trigger month
has its action invoked on the engine and is then marked fired (when the
action raises, the step aborts); at any other month nothing happens; and a
step never clears a fired flag, so once fired an event stays fired in every
later step. -/
theorem C3_event_fires_exactly_once :
    (∀ (e : Event) (month : ℤ) (fm : FinanceManager), e.executed = true →
      Event.applyStep e month fm = Except.ok (e, fm)) ∧
    (∀ (e : Event) (month : ℤ) (fm : FinanceManager), e.executed = false →
      month = e.trigger_month →
      Event.applyStep e month fm
        = (make_event_action e.action fm).map (fun q => ({ e with executed := true }, q))) ∧
    (∀ (e : Event) (month : ℤ) (fm : FinanceManager), month ≠ e.trigger_month →
      Event.applyStep e month fm = Except.ok (e, fm)) ∧
    (∀ (fm : FinanceManager) (g : RNG) (s : Snapshot) (fm' : FinanceManager) (g' : RNG),
      step_month fm g = Except.ok (s, fm', g') →
      ∀ i, (fm.events.getD i dummyEvent).executed = true →
        (fm'.events.getD i dummyEvent).executed = true) :=
  ⟨applyStep_executed, applyStep_fires, applyStep_not_trigger,
    fun fm g s fm' g' h => (step_month_ok fm g s fm' g' h).2.2.2⟩

/-- Witness for C3: an already-executed event is not re-fired when applied
again at exactly its trigger month. -/
theorem C3_witness : Event.applyStep evDone 5 fmDel = Except.ok (evDone, fmDel) :=
  C3_event_fires_exactly_once.1 evDone 5 fmDel rfl

/-- Claim C4 (confirmed): with a positive sweep rate, a non-empty allocation
with pairwise distinct names and positive weight total, and positive
sweep_amount = cash * invest_sweep_rate, the sweep phase succeeds; the total
distributed is the sum over allocation entries of sweep_amount times the
normalized weight for entries naming an active investment and 0 for the
rest; every allocation entry that matches an active investment adds exactly
sweep_amount * weight / total to that investment; investments matched by no
entry (including inactive ones) are untouched; and cash decreases by exactly
the total actually distributed. -/
theorem C4_sweep_distribution (fm : FinanceManager)
    (hrate : fm.invest_sweep_rate > 0) (hne : fm.allocation ≠ [])
    (hnodup : (fm.allocation.map Prod.fst).Nodup)
    (hpos : fm.cash * fm.invest_sweep_rate > 0)
    (htot : (fm.allocation.map Prod.snd).sum > 0) :
    sweepPhase fm = Except.ok
      ({ fm with
          investments := (distribute (fm.cash * fm.invest_sweep_rate)
            ((fm.allocation.map Prod.snd).sum) fm.allocation fm.investments).1,
          cash := fm.cash - (distribute (fm.cash * fm.invest_sweep_rate)
            ((fm.allocation.map Prod.snd).sum) fm.allocation fm.investments).2 },
        (distribute (fm.cash * fm.invest_sweep_rate)
          ((fm.allocation.map Prod.snd).sum) fm.allocation fm.investments).2) ∧
    (distribute (fm.cash * fm.invest_sweep_rate)
        ((fm.allocation.map Prod.snd).sum) fm.allocation fm.investments).2
      = (fm.allocation.map (fun p => if (firstActiveIdx p.1 fm.investments).isSome = true
          then (fm.cash * fm.invest_sweep_rate) * (p.2 / ((fm.allocation.map Prod.snd).sum))
          else 0)).sum ∧
    (∀ p ∈ fm.allocation, ∀ i, firstActiveIdx p.1 fm.investments = some i →
      (((distribute (fm.cash * fm.invest_sweep_rate)
          ((fm.allocation.map Prod.snd).sum) fm.allocation fm.investments).1.getD i dummyInv)).amount
        = (fm.investments.getD i dummyInv).amount
          + (fm.cash * fm.invest_sweep_rate) * (p.2 / ((fm.allocation.map Prod.snd).sum))) ∧
    (∀ j, (∀ p ∈ fm.allocation, firstActiveIdx p.1 fm.investments ≠ some j) →
      (distribute (fm.cash * fm.invest_sweep_rate)
          ((fm.allocation.map Prod.snd).sum) fm.allocation fm.investments).1.getD j dummyInv
        = fm.investments.getD j dummyInv) := by
  obtain ⟨_, h2, h3, h4⟩ := distribute_spec (fm.cash * fm.invest_sweep_rate)
    ((fm.allocation.map Prod.snd).sum) fm.allocation fm.investments hnodup
  refine ⟨?_, h2, h3, h4⟩
  simp only [sweepPhase]
  rw [if_pos ⟨hrate, hne⟩]
  rw [max_eq_right (le_of_lt hpos)]
  rw [if_pos hpos]
  rw [if_neg (not_le.mpr htot)]

/-- Witness for C4: allocation A 60 percent and B 40 percent with cash 2000
at sweep rate one half gives sweep_amount 1000; A receives 600 (going from
100 to 700), B receives 400 (going from 50 to 450), and cash falls by
exactly 1000. -/
theorem C4_witness :
    sweepPhase fmSweep = Except.ok
      ({ fmSweep with investments := [{ invA with amount := 700 }, { invB with amount := 450 }], cash := 1000 }, 1000) := by
  have h := (C4_sweep_distribution fmSweep
    (by norm_num [fmSweep]) (by simp [fmSweep]) (by simp [fmSweep]) (by norm_num [fmSweep])
    (by norm_num [fmSweep])).1
  rw [h]
  norm_num [fmSweep, invA, invB, distribute, firstActiveIdx, findIdxBy, updAt,
    Investment.add_funds, nameA_ne_nameB]

/-- Claim C5 (code bug): delete on a matching income does not soft-delete
and return true as the claim, the spec and the docstring of delete_object
state; because is_active is a read-only property, the assignment
obj.is_active = False raises AttributeError, so the call aborts. The
event branch (hard removal, true) and the no-match branch (false) behave as
claimed. -/
theorem C5_delete_object_behavior :
    delete_object fmDel ("income") ("Salary") = Except.error Err.cantSetAttribute ∧
    delete_object fmDel ("event") ("Promo") = Except.ok ({ fmDel with events := [] }, true) ∧
    delete_object fmDel ("income") ("Ghost") = Except.ok (fmDel, false) := by
  refine ⟨by decide, ?_, ?_⟩ <;> decide

/-- Claim C6, counterexample to the claim as stated: an action built from an
unrecognized operation string over a missing entity falls through the
if-elif chain without ever dereferencing the failed lookup, so invoking it
is a silent no-op rather than a failure. -/
theorem C6_counterexample_unknown_op_silent :
    make_event_action aNoopGhost fmEmpty = Except.ok fmEmpty := by decide

/-- Claim C6 (amended): for an action built with one of the four recognized
operations (add, multiply, reduce_percent, add_percent), a lookup that finds
no active entity of the given type and name makes the invocation fail (the
None dereference raises, which is the ObjectNotFound failure) rather than
silently doing nothing; for any other operation string the lookup result is
never dereferenced and the action silently does nothing. -/
theorem C6_missing_entity_errors (a : EventAction) (fm : FinanceManager)
    (hop : a.operation ∈ knownOps)
    (hmiss : get_object fm a.obj_type a.obj_name = Except.ok none) :
    make_event_action a fm = Except.error Err.objectNotFound := by
  unfold make_event_action
  rw [hmiss]
  simp [hop]

/-- Witness for C6: the add operation on a name no income carries fails. -/
theorem C6_witness : make_event_action aAddGhost fmEmpty = Except.error Err.objectNotFound :=
  C6_missing_entity_errors aAddGhost fmEmpty (by decide) (by decide)

/-- Claim C7 (confirmed): a target with goal_value 0 is rejected when status
is evaluated: the progress division raises (ZeroDivisionError, the
InvalidGoal rejection point), so status evaluation never silently returns a
progress value, infinite or otherwise. The constructor performs no check,
which the claim permits. -/
theorem C7_zero_goal_rejected (t : Target) (fm : FinanceManager) (h : t.goal_value = 0) :
    Target.status t fm = Except.error Err.zeroDivision := by
  unfold Target.status
  cases hm : interpMetric t.check_function fm with
  | error e =>
    rw [interpMetric_error _ _ _ hm]
  | ok c =>
    show (if t.goal_value = 0 then Except.error Err.zeroDivision
      else Except.ok (c, min 100 (c / t.goal_value * 100))) = Except.error Err.zeroDivision
    rw [if_pos h]

/-- Witness for C7: the zero-goal target errors on the empty engine. -/
theorem C7_witness : Target.status tZero fmEmpty = Except.error Err.zeroDivision :=
  C7_zero_goal_rejected tZero fmEmpty rfl

/-- Claim C8 (confirmed): every revaluation outcome scales the balance by a
strictly positive factor — either 1 (no shock) or the absolute value of
direction + magnitude with direction 1 or -1 and magnitude one of the five
listed rates — hence revaluation preserves the sign of the balance and a
non-negative balance stays non-negative. -/
theorem C8_revaluation_positive_factor (v : Investment) (g : RNG) :
    (∃ c : ℚ, 0 < c ∧ (v.revaluation g).1.amount = v.amount * c ∧
      (c = 1 ∨ ∃ d r : ℚ, (d = 1 ∨ d = -1) ∧ r ∈ rateSet ∧ c = |d + r|)) ∧
    (0 ≤ v.amount → 0 ≤ (v.revaluation g).1.amount) ∧
    (0 < v.amount → 0 < (v.revaluation g).1.amount) ∧
    (v.amount < 0 → (v.revaluation g).1.amount < 0) := by
  simp only [Investment.revaluation]
  split
  · split
    · refine ⟨⟨_, abs_dir_rate_pos _ _ (by split <;> [exact Or.inl rfl; exact Or.inr rfl]), rfl, ?_⟩, ?_, ?_, ?_⟩
      · exact Or.inr ⟨_, _, by split <;> [exact Or.inl rfl; exact Or.inr rfl], rate_from_cases _, rfl⟩
      · intro ha
        exact mul_nonneg ha
          (le_of_lt (abs_dir_rate_pos _ _ (by split <;> [exact Or.inl rfl; exact Or.inr rfl])))
      · intro ha
        exact mul_pos ha (abs_dir_rate_pos _ _ (by split <;> [exact Or.inl rfl; exact Or.inr rfl]))
      · intro ha
        exact mul_neg_of_neg_of_pos ha
          (abs_dir_rate_pos _ _ (by split <;> [exact Or.inl rfl; exact Or.inr rfl]))
    · exact ⟨⟨1, one_pos, (mul_one _).symm, Or.inl rfl⟩, fun h => h, fun h => h, fun h => h⟩
  · exact ⟨⟨1, one_pos, (mul_one _).symm, Or.inl rfl⟩, fun h => h, fun h => h, fun h => h⟩

/-- Witness for C8: the non-negative balance of investment A stays
non-negative through a revaluation on the all-zero stream. -/
theorem C8_witness : 0 ≤ (invA.revaluation rng0).1.amount :=
  (C8_revaluation_positive_factor invA rng0).2.1 (by norm_num [invA])

/-- Claim C9 (confirmed): the run is a deterministic function of the engine
configuration and the random stream, so with a fixed seed two runs of the
same length over identical configurations produce identical cash and
investments_total trajectories; moreover an inactive investment consumes no
randomness, so the draws are made per active investment per month in
investment-collection order, as the revaluation loop threads the stream. -/
theorem C9_fixed_seed_determinism (n : ℕ) (fm1 fm2 : FinanceManager) (g1 g2 : RNG)
    (hfm : fm1 = fm2) (hg : g1 = g2) :
    (run n fm1 g1).map (fun out => out.1.map Snapshot.cash)
      = (run n fm2 g2).map (fun out => out.1.map Snapshot.cash) ∧
    (run n fm1 g1).map (fun out => out.1.map Snapshot.investments_total)
      = (run n fm2 g2).map (fun out => out.1.map Snapshot.investments_total) ∧
    (∀ v : Investment, v.active = false → ∀ g : RNG, v.revaluation g = (v, g)) := by
  subst hfm
  subst hg
  refine ⟨rfl, rfl, ?_⟩
  intro v hv g
  unfold Investment.revaluation
  rw [if_neg (by simp [hv])]

/-- Witness for C9: the worked example run agrees with itself on the cash
trajectory. -/
theorem C9_witness :
    (run 1 fmExample rng0).map (fun out => out.1.map Snapshot.cash)
      = (run 1 fmExample rng0).map (fun out => out.1.map Snapshot.cash) :=
  (C9_fixed_seed_determinism 1 fmExample fmExample rng0 rng0 rfl rfl).1

/-- Claim C10 (confirmed): an action built from an operation string that is
none of add, multiply, reduce_percent, add_percent, invoked on an engine
whose lookup finds a matching entity, raises nothing and returns the engine
completely unchanged — a silent no-op. -/
theorem C10_unknown_operation_noop (a : EventAction) (fm : FinanceManager) (loc : Loc)
    (hop : a.operation ∉ knownOps)
    (hfound : get_object fm a.obj_type a.obj_name = Except.ok (some loc)) :
    make_event_action a fm = Except.ok fm := by
  unfold make_event_action
  rw [hfound]
  simp [hop]

/-- Witness for C10: the frobnicate operation on the existing Salary income
does nothing. -/
theorem C10_witness : make_event_action aNoopSalary fmDel = Except.ok fmDel :=
  C10_unknown_operation_noop aNoopSalary fmDel (Loc.income 0) (by decide) (by decide)

end FinPlan
